import Mathlib

/-!
A shallow embedding of `read_pipelines.py` from the ADFDocumentationGeneration
repository, together with theorems about its single function `read_pipeline`.

Modelling conventions:
* Parsed JSON documents are modelled by `JVal`.  Objects keep the key order of
  the document (which is the iteration order of a Python 3.7+ dict built by
  `json.load`); duplicate keys are not modelled; numbers are modelled as
  integers.
* The markdown text appended to the output file is modelled by a
  writer-with-errors computation `M α`: a pair of the text written so far and
  either a result or the first Python exception raised.  A failing run keeps
  the text written before the failure, modelling that `md.write` calls already
  performed are not rolled back when an exception propagates.
* Python exceptions are the constructors of `PyErr`: `keyError` for a missing
  dict key, `typeError` for subscripting a non-container, `attributeError`
  for calling `.replace` / `.get` / `.items` on a value that lacks the method,
  `indexError` for an out-of-range list index, and `ioError` for a failure to
  open or to JSON-parse the input file (both of which happen before any
  `md.write`).  The source catches none of them.
* `read_pipeline` takes `Except InputErr JVal`: `Except.error` is the case in
  which the input pipeline file could not be opened (`InputErr.openFailed`) or
  its contents could not be parsed by `json.load` (`InputErr.parseFailed`);
  `Except.ok` carries the parsed document.  The returned `RunResult` records
  the text appended to the markdown file, the propagated exception if any,
  and whether `md.close()` (line 126 of the source) was reached.
* `logging.info` does not touch the markdown file and is not modelled.
* Where the source subscripts the same immutable dict several times with the
  same key inside one statement (line 87 f. reads the dependency name three
  times), the embedding keeps the repeated subscript of `dependsOn` (lines 84
  and 86) and collapses the repeated subscripts inside a single format call to
  one, which is observably identical on immutable data.
-/

/-- Parsed JSON values, as produced by `json.load`. -/
inductive JVal where
  | str : String → JVal
  | num : Int → JVal
  | bool : Bool → JVal
  | jnull : JVal
  | arr : List JVal → JVal
  | obj : List (String × JVal) → JVal

/-- Failure to open or to JSON-parse the input pipeline file. -/
inductive InputErr where
  | openFailed : InputErr
  | parseFailed : InputErr
deriving DecidableEq

/-- The Python exceptions the source can raise; none are caught internally. -/
inductive PyErr where
  | keyError : String → PyErr
  | typeError : PyErr
  | attributeError : PyErr
  | indexError : PyErr
  | ioError : InputErr → PyErr
deriving DecidableEq

/-- First-match association lookup on the key-value list of a JSON object. -/
def lookupStr (k : String) : List (String × JVal) → Option JVal
  | [] => none
  | (a, v) :: rest => if a = k then some v else lookupStr k rest

/-- Key lookup: `some` exactly when the value is an object that has the key. -/
def JVal.find? : JVal → String → Option JVal
  | .obj kvs, k => lookupStr k kvs
  | _, _ => none

/-- Python `v in d` on a dict (the source only applies it to dicts). -/
def JVal.hasKey (v : JVal) (k : String) : Bool :=
  (v.find? k).isSome

/-- Python `d.get(k, default)` on a dict. -/
def JVal.getD (v : JVal) (k : String) (d : JVal) : JVal :=
  (v.find? k).getD d

mutual

/-- Python `repr`, as used by `str` on elements of containers. -/
def pyRepr : JVal → String
  | .str s => "\x27" ++ s ++ "\x27"
  | .num n => toString n
  | .bool true => "True"
  | .bool false => "False"
  | .jnull => "None"
  | .arr l => "[" ++ pyReprList l ++ "]"
  | .obj kvs => "\x7b" ++ pyReprObj kvs ++ "\x7d"

/-- The comma-separated `repr` of the elements of a Python list. -/
def pyReprList : List JVal → String
  | [] => ""
  | [v] => pyRepr v
  | v :: vs => pyRepr v ++ ", " ++ pyReprList vs

/-- The comma-separated `repr` of the items of a Python dict. -/
def pyReprObj : List (String × JVal) → String
  | [] => ""
  | [(k, v)] => "\x27" ++ k ++ "\x27: " ++ pyRepr v
  | (k, v) :: kvs => "\x27" ++ k ++ "\x27: " ++ pyRepr v ++ ", " ++ pyReprObj kvs

end

/-- Python `str`, as used by f-string and `%` / `format` interpolation. -/
def pyStr : JVal → String
  | .str s => s
  | v => pyRepr v

/-- Python single-character `s.replace(a, b)` (the source only replaces a
space by an underscore or a hyphen). -/
def replaceChar (s : String) (a b : Char) : String :=
  String.mk (s.data.map (fun c => if c = a then b else c))

/-- Python subscription `v[k]` with a string key: `KeyError` on a dict
without the key, `TypeError` on anything that is not a dict. -/
def jsub (v : JVal) (k : String) : Except PyErr JVal :=
  match v with
  | .obj kvs =>
      match lookupStr k kvs with
      | some x => Except.ok x
      | none => Except.error (PyErr.keyError k)
  | _ => Except.error PyErr.typeError

/-- Python `v[i]` with a non-negative integer index. -/
def pyIndex (v : JVal) (i : Nat) : Except PyErr JVal :=
  match v with
  | .arr l =>
      match l.get? i with
      | some x => Except.ok x
      | none => Except.error PyErr.indexError
  | .str s =>
      match s.data.get? i with
      | some c => Except.ok (JVal.str (String.mk [c]))
      | none => Except.error PyErr.indexError
  | _ => Except.error PyErr.typeError

/-- Python `len(v)`. -/
def pyLen (v : JVal) : Except PyErr Nat :=
  match v with
  | .arr l => Except.ok l.length
  | .obj kvs => Except.ok kvs.length
  | .str s => Except.ok s.length
  | _ => Except.error PyErr.typeError

/-- Python iteration `for x in v`: list elements, dict keys, or the
characters of a string; `TypeError` otherwise. -/
def pyIterList (v : JVal) : Except PyErr (List JVal) :=
  match v with
  | .arr l => Except.ok l
  | .obj kvs => Except.ok (kvs.map (fun kv => JVal.str kv.1))
  | .str s => Except.ok (s.data.map (fun c => JVal.str (String.mk [c])))
  | _ => Except.error PyErr.typeError

/-- Python `v.replace(a, b)`: `AttributeError` on a non-string. -/
def pyReplace (v : JVal) (a b : Char) : Except PyErr String :=
  match v with
  | .str s => Except.ok (replaceChar s a b)
  | _ => Except.error PyErr.attributeError

/-- Python `v.items()`: `AttributeError` on a non-dict. -/
def pyItems (v : JVal) : Except PyErr (List (String × JVal)) :=
  match v with
  | .obj kvs => Except.ok kvs
  | _ => Except.error PyErr.attributeError

/-- Python single-argument `v.get(k)` on a dict (`None` when the key is
absent); `AttributeError` on a non-dict. -/
def pyGet (v : JVal) (k : String) : Except PyErr JVal :=
  match v with
  | .obj _ => Except.ok ((v.find? k).getD JVal.jnull)
  | _ => Except.error PyErr.attributeError

/-- The total value of `v.get(k)` on a dict (used to state theorems). -/
def pyGetD (v : JVal) (k : String) : JVal :=
  (v.find? k).getD JVal.jnull

/-- Python `v == "lit"` for a string literal: `False` on non-strings. -/
def pyEqStr (v : JVal) (s : String) : Bool :=
  match v with
  | .str t => decide (t = s)
  | _ => false

/-- A markdown-appending computation: the text written to the markdown file
so far, and either the result or the first uncaught Python exception.  On an
exception the text already written is kept. -/
abbrev M (α : Type) : Type := String × Except PyErr α

/-- Return without writing. -/
def mPure {α : Type} (a : α) : M α := ("", Except.ok a)

/-- An expression evaluation that writes nothing. -/
def mLift {α : Type} (r : Except PyErr α) : M α := ("", r)

/-- Python `md.write t`. -/
def mdWrite (t : String) : M Unit := (t, Except.ok ())

/-- Sequencing: on success the written texts concatenate, a raised exception
aborts the continuation but keeps what was written before it. -/
def mBind {α β : Type} (m : M α) (f : α → M β) : M β :=
  match m.2 with
  | Except.ok a => (m.1 ++ (f a).1, (f a).2)
  | Except.error e => (m.1, Except.error e)

/-- Lines 55-62 of the source: the optional pipeline description. -/
def descStep (properties : JVal) : M Unit :=
  if properties.hasKey "description" then
    mBind (mLift (jsub properties "description")) fun pipeline_description =>
    mBind (mdWrite ("\n **Description:** " ++ pyStr pipeline_description ++ " \n")) fun _ =>
    mdWrite "\n\n ### Steps \n"
  else mPure ()

/-- Lines 86-88 of the source: the body of the dependency loop, threading the
accumulated mermaid code. -/
def processDeps (activity_name : JVal) : List JVal → String → M String
  | [], mermaid_code => mPure mermaid_code
  | dep :: rest, mermaid_code =>
    mBind (mLift (jsub dep "activity")) fun depAct =>
    mBind (mLift (pyReplace depAct ' ' '-')) fun anchor =>
    mBind (mLift (jsub dep "dependencyConditions")) fun conds =>
    mBind (mLift (pyIndex conds 0)) fun cond0 =>
    mBind (mdWrite ("\n   * [" ++ pyStr depAct ++ "](#" ++ anchor ++ ") (" ++ pyStr cond0 ++ ") \n")) fun _ =>
    mBind (mLift (pyReplace depAct ' ' '_')) fun src =>
    mBind (mLift (pyReplace activity_name ' ' '_')) fun dst =>
    processDeps activity_name rest (mermaid_code ++ (src ++ (" --> " ++ (dst ++ ";\n"))))

/-- Lines 78-81 of the source: the optional activity description. -/
def actDescStep (act : JVal) : M Unit :=
  if act.hasKey "description" then
    mBind (mLift (jsub act "description")) fun act_description =>
    mdWrite ("\n   **Description:** " ++ pyStr act_description ++ " \n")
  else mPure ()

/-- Lines 83-88 of the source: the dependency section; `n` is the value of
`len(act[dependsOn])` computed on line 84, and the source subscripts
`dependsOn` again on line 86 before iterating. -/
def actDepsStep (activity_name : JVal) (act : JVal) (n : Nat) (mc1 : String) : M String :=
  if n > 0 then
    mBind (mdWrite "\n   **Dependencies:**") fun _ =>
    mBind (mLift (jsub act "dependsOn")) fun deps =>
    mBind (mLift (pyIterList deps)) fun ds =>
    processDeps activity_name ds mc1
  else mPure mc1

/-- Lines 90-100 of the source: the extra section for a Copy activity. -/
def actCopyStep (act : JVal) (tipo_actividad : JVal) : M Unit :=
  if pyEqStr tipo_actividad "Copy" then
    mBind (mLift (jsub act "typeProperties")) fun typeProperties =>
    mBind (mLift (jsub typeProperties "source")) fun source_info =>
    mBind (mLift (jsub source_info "type")) fun source_info_type =>
    mBind (mdWrite ("\n   **Data Source Type:** " ++ pyStr source_info_type ++ " \n")) fun _ =>
    mBind (mLift (jsub source_info "sqlReaderQuery")) fun srq =>
    mBind (mLift (jsub srq "value")) fun value_sql =>
    mBind (mdWrite "\n   **SQL Statement:**  \n") fun _ =>
    mdWrite ("\n   ```SQL \n   " ++ (pyStr value_sql ++ " \n   ```"))
  else mPure ()

/-- Lines 68-100 of the source: one iteration of the activity loop, threading
the accumulated mermaid code. -/
def processActivity (act : JVal) (mermaid_code : String) : M String :=
  mBind (mLift (jsub act "name")) fun activity_name =>
  mBind (mLift (jsub act "type")) fun tipo_actividad =>
  mBind (mdWrite ("\n - **Name:** " ++ pyStr activity_name ++ " \n")) fun _ =>
  mBind (mdWrite ("\n   **Type:** " ++ pyStr tipo_actividad ++ " \n")) fun _ =>
  mBind (mLift (pyReplace activity_name ' ' '_')) fun nodeId =>
  mBind (actDescStep act) fun _ =>
  mBind (mLift (jsub act "dependsOn")) fun deps0 =>
  mBind (mLift (pyLen deps0)) fun n =>
  mBind (actDepsStep activity_name act n
           (mermaid_code ++ (nodeId ++ ("(" ++ (pyStr activity_name ++ ");\n"))))) fun mc2 =>
  mBind (actCopyStep act tipo_actividad) fun _ =>
  mPure mc2

/-- The activity loop of line 68, threading the accumulated mermaid code. -/
def processActivities : List JVal → String → M String
  | [], mermaid_code => mPure mermaid_code
  | act :: rest, mermaid_code =>
    mBind (processActivity act mermaid_code) fun mc =>
    processActivities rest mc

/-- Lines 119-123 of the source: the parameter-table loop. -/
def processParams : List (String × JVal) → M Unit
  | [] => mPure ()
  | (parameter, info) :: rest =>
    mBind (mLift (pyGet info "type")) fun parameter_type =>
    mBind (mLift (pyGet info "defaultValue")) fun default_value =>
    mBind (mdWrite ("\n |" ++ (parameter ++ ("|" ++ (pyStr parameter_type ++ ("|" ++ (pyStr default_value ++ "|"))))))) fun _ =>
    processParams rest

/-- Lines 109-123 of the source: the optional parameter table. -/
def paramsStep (properties : JVal) : M Unit :=
  if properties.hasKey "parameters" then
    mBind (mdWrite "\n\n ### Parameters \n") fun _ =>
    mBind (mdWrite "\n | Name | Type | Default Value |") fun _ =>
    mBind (mdWrite "\n |---|---|---|") fun _ =>
    mBind (mLift (pyItems (properties.getD "parameters" (JVal.obj [])))) fun items =>
    processParams items
  else mPure ()

/-- Lines 49-123 of the source: everything inside the `with` block, on the
parsed pipeline document. -/
def read_pipeline_json (pipelines_data : JVal) : M Unit :=
  mBind (mLift (jsub pipelines_data "name")) fun nm =>
  mBind (mdWrite ("\n\n ## " ++ pyStr nm ++ " \n")) fun _ =>
  let properties := pipelines_data.getD "properties" (JVal.obj [])
  mBind (descStep properties) fun _ =>
  let mermaid_code := "```mermaid\ngraph LR;\n"
  mBind (mLift (jsub properties "activities")) fun activities =>
  mBind (mLift (pyIterList activities)) fun acts =>
  mBind (processActivities acts mermaid_code) fun mermaid_done =>
  mBind (mdWrite "\n\n ### Activities Diagram \n") fun _ =>
  mBind (mdWrite ("\n " ++ (mermaid_done ++ " ```"))) fun _ =>
  paramsStep properties

/-- The observable outcome of one call of `read_pipeline`: the text appended
to the markdown file, the propagated exception if any, and whether the
`md.close()` of line 126 was reached. -/
structure RunResult where
  written : String
  err : Option PyErr
  mdClosed : Bool
deriving DecidableEq

/-- The function `read_pipeline` of the source.  The markdown file is opened
for append first (line 45); a failure to open or parse the input file (lines
48-49) therefore happens before any write.  `md.close()` (line 126) sits
outside the `with` block on the plain success path, so it is reached exactly
when no exception was raised. -/
def read_pipeline (input : Except InputErr JVal) : RunResult :=
  match input with
  | Except.error e => ⟨"", some (PyErr.ioError e), false⟩
  | Except.ok pipelines_data =>
    match read_pipeline_json pipelines_data with
    | (out, Except.ok _) => ⟨out, none, true⟩
    | (out, Except.error e) => ⟨out, some e, false⟩

/-! ### String facts used throughout -/

theorem str_eq_of_data {a b : String} (h : a.data = b.data) : a = b := by
  cases a
  cases b
  exact congrArg String.mk h

theorem str_nil_append (s : String) : "" ++ s = s := by
  cases s
  rfl

theorem str_append_nil (s : String) : s ++ "" = s := by
  cases s with
  | mk l => exact congrArg String.mk (List.append_nil l)

theorem str_append_assoc (a b c : String) : (a ++ b) ++ c = a ++ (b ++ c):= by
  cases a with
  | mk la =>
    cases b with
    | mk lb =>
      cases c with
      | mk lc => exact congrArg String.mk (List.append_assoc la lb lc)

theorem str_data_append (a b : String) : (a ++ b).data = a.data ++ b.data := by
  cases a
  cases b
  rfl

/-- `needle` occurs as a contiguous substring of `hay`. -/
def occursIn (needle hay : String) : Prop :=
  ∃ pre post : String, hay = (pre ++ needle) ++ post

theorem occursIn_refl (s : String) : occursIn s s :=
  ⟨"", "", by rw [str_nil_append, str_append_nil]⟩

theorem occursIn_append_left (x : String) {n h : String} (o : occursIn n h) :
    occursIn n (x ++ h) := by
  obtain ⟨pre, post, e⟩ := o
  exact ⟨x ++ pre, post, by rw [e]; simp only [str_append_assoc]⟩

theorem occursIn_append_right (x : String) {n h : String} (o : occursIn n h) :
    occursIn n (h ++ x) := by
  obtain ⟨pre, post, e⟩ := o
  exact ⟨pre, post ++ x, by rw [e]; simp only [str_append_assoc]⟩

theorem occursIn_trans {a b c : String} (o₁ : occursIn a b) (o₂ : occursIn b c) :
    occursIn a c := by
  obtain ⟨p₁, q₁, e₁⟩ := o₁
  obtain ⟨p₂, q₂, e₂⟩ := o₂
  refine ⟨p₂ ++ p₁, q₁ ++ q₂, ?_⟩
  rw [e₂, e₁]
  simp only [str_append_assoc]

/-! ### A decision procedure for `occursIn` -/

/-- Whether `n` is a prefix of `h` (character lists). -/
def isPrefList : List Char → List Char → Bool
  | [], _ => true
  | _ :: _, [] => false
  | a :: as, b :: bs => if a = b then isPrefList as bs else false

/-- Whether `n` occurs as a contiguous sublist of `h`. -/
def hasSubList (n : List Char) : List Char → Bool
  | [] => isPrefList n []
  | c :: t => isPrefList n (c :: t) || hasSubList n t

theorem isPrefList_iff (n : List Char) : ∀ h : List Char,
    isPrefList n h = true ↔ ∃ t, h = n ++ t := by
  induction n with
  | nil =>
    intro h
    simp [isPrefList]
  | cons a as ih =>
    intro h
    cases h with
    | nil =>
      simp [isPrefList]
    | cons b bs =>
      constructor
      · intro hp
        by_cases hab : a = b
        · rw [isPrefList, if_pos hab] at hp
          obtain ⟨t, ht⟩ := (ih bs).mp hp
          exact ⟨t, by rw [ht, hab]; rfl⟩
        · rw [isPrefList, if_neg hab] at hp
          exact absurd hp (by simp)
      · rintro ⟨t, ht⟩
        cases ht
        rw [isPrefList, if_pos rfl]
        exact (ih (as ++ t)).mpr ⟨t, rfl⟩

theorem hasSubList_iff (n : List Char) : ∀ h : List Char,
    hasSubList n h = true ↔ ∃ p t, h = p ++ (n ++ t) := by
  intro h
  induction h with
  | nil =>
    rw [hasSubList, isPrefList_iff]
    constructor
    · rintro ⟨t, ht⟩
      exact ⟨[], t, ht⟩
    · rintro ⟨p, t, hpt⟩
      have h0 : p ++ (n ++ t) = [] := hpt.symm
      rw [List.append_eq_nil] at h0
      have h1 : n ++ t = [] := h0.2
      exact ⟨t, by rw [hpt, h0.1]; rfl⟩
  | cons c t ih =>
    rw [hasSubList, Bool.or_eq_true, isPrefList_iff, ih]
    constructor
    · rintro (⟨s, hs⟩ | ⟨p, s, hps⟩)
      · exact ⟨[], s, hs⟩
      · exact ⟨c :: p, s, by rw [List.cons_append, ← hps]⟩
    · rintro ⟨p, s, hps⟩
      cases p with
      | nil => exact Or.inl ⟨s, hps⟩
      | cons d p' =>
        rw [List.cons_append] at hps
        injection hps with h1 h2
        exact Or.inr ⟨p', s, h2⟩

theorem occursIn_iff_hasSubList (n h : String) :
    occursIn n h ↔ hasSubList n.data h.data = true := by
  rw [hasSubList_iff]
  constructor
  · rintro ⟨pre, post, e⟩
    refine ⟨pre.data, post.data, ?_⟩
    have := congrArg String.data e
    rw [str_data_append, str_data_append] at this
    rw [this, List.append_assoc]
  · rintro ⟨p, s, e⟩
    refine ⟨String.mk p, String.mk s, str_eq_of_data ?_⟩
    rw [str_data_append, str_data_append]
    rw [e, List.append_assoc]

instance occursInDecidable (n h : String) : Decidable (occursIn n h) :=
  decidable_of_iff (hasSubList n.data h.data = true) (occursIn_iff_hasSubList n h).symm

/-! ### Facts about the writer computation `M` -/

theorem mBind_lift_ok {α β : Type} (a : α) (f : α → M β) :
    mBind (mLift (Except.ok a)) f = f a := by
  show ("" ++ (f a).1, (f a).2) = f a
  rw [str_nil_append]

theorem mBind_lift_error {α β : Type} (e : PyErr) (f : α → M β) :
    mBind (mLift (Except.error e)) f = ("", Except.error e) := rfl

theorem mBind_write {β : Type} (t : String) (f : Unit → M β) :
    mBind (mdWrite t) f = (t ++ (f ()).1, (f ()).2) := rfl

theorem mBind_pure {α β : Type} (a : α) (f : α → M β) :
    mBind (mPure a) f = f a := by
  show ("" ++ (f a).1, (f a).2) = f a
  rw [str_nil_append]

theorem mBind_eq_ok {α β : Type} {m : M α} {a : α} (f : α → M β)
    (h : m.2 = Except.ok a) : mBind m f = (m.1 ++ (f a).1, (f a).2) := by
  unfold mBind
  rw [h]

theorem mBind_eq_error {α β : Type} {m : M α} {e : PyErr} (f : α → M β)
    (h : m.2 = Except.error e) : mBind m f = (m.1, Except.error e) := by
  unfold mBind
  rw [h]

/-! ### Facts about the Python primitives -/

theorem jsub_ok_iff {v : JVal} {k : String} {x : JVal} :
    jsub v k = Except.ok x ↔ v.find? k = some x := by
  cases v with
  | obj kvs =>
    rw [jsub, JVal.find?]
    cases hl : lookupStr k kvs <;> simp
  | str s => simp [jsub, JVal.find?]
  | num n => simp [jsub, JVal.find?]
  | bool b => simp [jsub, JVal.find?]
  | jnull => simp [jsub, JVal.find?]
  | arr l => simp [jsub, JVal.find?]

theorem jsub_error_of_none {v : JVal} {k : String} (h : v.find? k = none) :
    ∃ e, jsub v k = Except.error e := by
  cases v with
  | obj kvs =>
    rw [JVal.find?] at h
    exact ⟨PyErr.keyError k, by rw [jsub, h]⟩
  | str s => exact ⟨PyErr.typeError, rfl⟩
  | num n => exact ⟨PyErr.typeError, rfl⟩
  | bool b => exact ⟨PyErr.typeError, rfl⟩
  | jnull => exact ⟨PyErr.typeError, rfl⟩
  | arr l => exact ⟨PyErr.typeError, rfl⟩

theorem hasKey_iff {v : JVal} {k : String} :
    v.hasKey k = true ↔ ∃ x, v.find? k = some x := by
  rw [JVal.hasKey, Option.isSome_iff_exists]

theorem jsub_ok_of_hasKey {v : JVal} {k : String} (h : v.hasKey k = true) :
    ∃ x, jsub v k = Except.ok x := by
  obtain ⟨x, hx⟩ := hasKey_iff.mp h
  exact ⟨x, jsub_ok_iff.mpr hx⟩

theorem fst_pair {α : Type} (s : String) (r : Except PyErr α) : ((s, r) : M α).1 = s := rfl

theorem snd_pair {α : Type} (s : String) (r : Except PyErr α) : ((s, r) : M α).2 = r := rfl


/-! ### The dependency loop -/

theorem processDeps_cons_eq (an d : JVal) (rest : List JVal) (mc : String)
    {depAct : JVal} {anchor : String} {conds cond0 : JVal} {src dst : String}
    (h1 : jsub d "activity" = Except.ok depAct)
    (h2 : pyReplace depAct ' ' '-' = Except.ok anchor)
    (h3 : jsub d "dependencyConditions" = Except.ok conds)
    (h4 : pyIndex conds 0 = Except.ok cond0)
    (h5 : pyReplace depAct ' ' '_' = Except.ok src)
    (h6 : pyReplace an ' ' '_' = Except.ok dst) :
    processDeps an (d :: rest) mc =
      (("\n   * [" ++ pyStr depAct ++ "](#" ++ anchor ++ ") (" ++ pyStr cond0 ++ ") \n")
         ++ (processDeps an rest (mc ++ (src ++ (" --> " ++ (dst ++ ";\n"))))).1,
       (processDeps an rest (mc ++ (src ++ (" --> " ++ (dst ++ ";\n"))))).2) := by
  simp only [processDeps, h1, h2, h3, h4, h5, h6, mBind_lift_ok, mBind_write]

theorem processDeps_mono (an : JVal) (ds : List JVal) :
    ∀ mc mcF : String, (processDeps an ds mc).2 = Except.ok mcF → ∃ t, mcF = mc ++ t := by
  induction ds with
  | nil =>
    intro mc mcF h
    simp only [processDeps, mPure, snd_pair, Except.ok.injEq] at h
    exact ⟨"", by rw [str_append_nil]; exact h.symm⟩
  | cons d rest ih =>
    intro mc mcF h
    cases h1 : jsub d "activity" with
    | error e =>
      simp only [processDeps, h1, mBind_lift_error, snd_pair] at h
      exact absurd h (by simp)
    | ok depAct =>
    cases h2 : pyReplace depAct ' ' '-' with
    | error e =>
      simp only [processDeps, h1, mBind_lift_ok, h2, mBind_lift_error, snd_pair] at h
      exact absurd h (by simp)
    | ok anchor =>
    cases h3 : jsub d "dependencyConditions" with
    | error e =>
      simp only [processDeps, h1, h2, mBind_lift_ok, h3, mBind_lift_error, snd_pair] at h
      exact absurd h (by simp)
    | ok conds =>
    cases h4 : pyIndex conds 0 with
    | error e =>
      simp only [processDeps, h1, h2, h3, mBind_lift_ok, h4, mBind_lift_error, snd_pair] at h
      exact absurd h (by simp)
    | ok cond0 =>
    cases h5 : pyReplace depAct ' ' '_' with
    | error e =>
      simp only [processDeps, h1, h2, h3, h4, mBind_lift_ok, h5, mBind_lift_error,
        mBind_write, snd_pair] at h
      exact absurd h (by simp)
    | ok src =>
    cases h6 : pyReplace an ' ' '_' with
    | error e =>
      simp only [processDeps, h1, h2, h3, h4, h5, mBind_lift_ok, h6, mBind_lift_error,
        mBind_write, snd_pair] at h
      exact absurd h (by simp)
    | ok dst =>
    rw [processDeps_cons_eq an d rest mc h1 h2 h3 h4 h5 h6] at h
    have h' : (processDeps an rest (mc ++ (src ++ (" --> " ++ (dst ++ ";\n"))))).2
        = Except.ok mcF := h
    obtain ⟨t, ht⟩ := ih _ _ h'
    exact ⟨src ++ (" --> " ++ (dst ++ ";\n")) ++ t, by rw [ht, str_append_assoc]⟩

theorem processDeps_mem (an : JVal) (ds : List JVal) (dep : JVal) :
    ∀ mc mcF : String, dep ∈ ds → (processDeps an ds mc).2 = Except.ok mcF →
    ∃ depAct anchor conds cond0 src dst,
      jsub dep "activity" = Except.ok depAct ∧
      pyReplace depAct ' ' '-' = Except.ok anchor ∧
      jsub dep "dependencyConditions" = Except.ok conds ∧
      pyIndex conds 0 = Except.ok cond0 ∧
      pyReplace depAct ' ' '_' = Except.ok src ∧
      pyReplace an ' ' '_' = Except.ok dst ∧
      occursIn ("\n   * [" ++ pyStr depAct ++ "](#" ++ anchor ++ ") (" ++ pyStr cond0 ++ ") \n")
        (processDeps an ds mc).1 ∧
      occursIn (src ++ (" --> " ++ (dst ++ ";\n"))) mcF := by
  induction ds with
  | nil =>
    intro mc mcF hmem
    exact absurd hmem (List.not_mem_nil dep)
  | cons d rest ih =>
    intro mc mcF hmem h
    cases h1 : jsub d "activity" with
    | error e =>
      simp only [processDeps, h1, mBind_lift_error, snd_pair] at h
      exact absurd h (by simp)
    | ok depAct =>
    cases h2 : pyReplace depAct ' ' '-' with
    | error e =>
      simp only [processDeps, h1, mBind_lift_ok, h2, mBind_lift_error, snd_pair] at h
      exact absurd h (by simp)
    | ok anchor =>
    cases h3 : jsub d "dependencyConditions" with
    | error e =>
      simp only [processDeps, h1, h2, mBind_lift_ok, h3, mBind_lift_error, snd_pair] at h
      exact absurd h (by simp)
    | ok conds =>
    cases h4 : pyIndex conds 0 with
    | error e =>
      simp only [processDeps, h1, h2, h3, mBind_lift_ok, h4, mBind_lift_error, snd_pair] at h
      exact absurd h (by simp)
    | ok cond0 =>
    cases h5 : pyReplace depAct ' ' '_' with
    | error e =>
      simp only [processDeps, h1, h2, h3, h4, mBind_lift_ok, h5, mBind_lift_error,
        mBind_write, snd_pair] at h
      exact absurd h (by simp)
    | ok src =>
    cases h6 : pyReplace an ' ' '_' with
    | error e =>
      simp only [processDeps, h1, h2, h3, h4, h5, mBind_lift_ok, h6, mBind_lift_error,
        mBind_write, snd_pair] at h
      exact absurd h (by simp)
    | ok dst =>
    rw [processDeps_cons_eq an d rest mc h1 h2 h3 h4 h5 h6] at h ⊢
    have h' : (processDeps an rest (mc ++ (src ++ (" --> " ++ (dst ++ ";\n"))))).2
        = Except.ok mcF := h
    rcases List.mem_cons.mp hmem with heq | hmem'
    · subst heq
      refine ⟨depAct, anchor, conds, cond0, src, dst, h1, h2, h3, h4, h5, rfl, ?_, ?_⟩
      · exact occursIn_append_right _ (occursIn_refl _)
      · obtain ⟨t, ht⟩ := processDeps_mono an rest _ _ h'
        exact ⟨mc, t, ht⟩
    · obtain ⟨dA, dAn, dC, dC0, dS, dD, g1, g2, g3, g4, g5, g6, gline, gedge⟩ :=
        ih _ _ hmem' h'
      rw [h6] at g6
      exact ⟨dA, dAn, dC, dC0, dS, dD, g1, g2, g3, g4, g5, g6,
        occursIn_append_left _ gline, gedge⟩

theorem mdWrite_fst (t : String) : (mdWrite t).1 = t := rfl

theorem mdWrite_snd (t : String) : (mdWrite t).2 = Except.ok () := rfl

theorem mPure_fst {α : Type} (a : α) : (mPure a).1 = "" := rfl

theorem mPure_snd {α : Type} (a : α) : (mPure a).2 = Except.ok a := rfl

theorem pyIterList_arr (l : List JVal) : pyIterList (JVal.arr l) = Except.ok l := rfl

/-! ### The per-activity stages -/

theorem actDescStep_ok (act : JVal) : (actDescStep act).2 = Except.ok () := by
  unfold actDescStep
  split
  next hd =>
    obtain ⟨x, hx⟩ := jsub_ok_of_hasKey hd
    simp only [hx, mBind_lift_ok, mBind_write, snd_pair, mdWrite_snd]
  next hd => rfl

theorem descStep_ok (properties : JVal) : (descStep properties).2 = Except.ok () := by
  unfold descStep
  split
  next hd =>
    obtain ⟨x, hx⟩ := jsub_ok_of_hasKey hd
    simp only [hx, mBind_lift_ok, mBind_write, snd_pair, mdWrite_snd]
  next hd => rfl

theorem actCopyStep_facts (act tipo : JVal) (hc : pyEqStr tipo "Copy" = true)
    (hok : (actCopyStep act tipo).2 = Except.ok ()) :
    ∃ typeProperties source_info source_info_type srq value_sql,
      jsub act "typeProperties" = Except.ok typeProperties ∧
      jsub typeProperties "source" = Except.ok source_info ∧
      jsub source_info "type" = Except.ok source_info_type ∧
      jsub source_info "sqlReaderQuery" = Except.ok srq ∧
      jsub srq "value" = Except.ok value_sql ∧
      occursIn ("\n   ```SQL \n   " ++ (pyStr value_sql ++ " \n   ```")) (actCopyStep act tipo).1 := by
  unfold actCopyStep at hok ⊢
  rw [hc] at hok ⊢
  rw [if_pos rfl] at hok ⊢
  cases h1 : jsub act "typeProperties" with
  | error e =>
    simp only [h1, mBind_lift_error, snd_pair] at hok
    exact absurd hok (by simp)
  | ok typeProperties =>
  cases h2 : jsub typeProperties "source" with
  | error e =>
    simp only [h1, mBind_lift_ok, h2, mBind_lift_error, snd_pair] at hok
    exact absurd hok (by simp)
  | ok source_info =>
  cases h3 : jsub source_info "type" with
  | error e =>
    simp only [h1, h2, mBind_lift_ok, h3, mBind_lift_error, snd_pair] at hok
    exact absurd hok (by simp)
  | ok source_info_type =>
  cases h4 : jsub source_info "sqlReaderQuery" with
  | error e =>
    simp only [h1, h2, h3, mBind_lift_ok, h4, mBind_lift_error, mBind_write, snd_pair] at hok
    exact absurd hok (by simp)
  | ok srq =>
  cases h5 : jsub srq "value" with
  | error e =>
    simp only [h1, h2, h3, h4, mBind_lift_ok, h5, mBind_lift_error, mBind_write, snd_pair] at hok
    exact absurd hok (by simp)
  | ok value_sql =>
  refine ⟨typeProperties, source_info, source_info_type, srq, value_sql, rfl, h2, h3, h4, h5, ?_⟩
  simp only [h1, h2, h3, h4, h5, mBind_lift_ok, mBind_write, fst_pair, mdWrite_fst]
  exact occursIn_append_left _ (occursIn_append_left _ (occursIn_refl _))

theorem actDepsStep_mono (an act : JVal) (n : Nat) (mc1 mc2 : String)
    (hok : (actDepsStep an act n mc1).2 = Except.ok mc2) : ∃ t, mc2 = mc1 ++ t := by
  unfold actDepsStep at hok
  split at hok
  next hn =>
    cases h1 : jsub act "dependsOn" with
    | error e =>
      simp only [h1, mBind_lift_error, mBind_write, snd_pair] at hok
      exact absurd hok (by simp)
    | ok deps =>
    cases h2 : pyIterList deps with
    | error e =>
      simp only [h1, mBind_lift_ok, h2, mBind_lift_error, mBind_write, snd_pair] at hok
      exact absurd hok (by simp)
    | ok ds =>
    simp only [h1, h2, mBind_lift_ok, mBind_write, snd_pair] at hok
    exact processDeps_mono an ds mc1 mc2 hok
  next hn =>
    simp only [mPure_snd, Except.ok.injEq] at hok
    exact ⟨"", by rw [str_append_nil]; exact hok.symm⟩

theorem actDepsStep_facts (an act : JVal) (n : Nat) (mc1 mc2 : String) (ds : List JVal) (dep : JVal)
    (hds : jsub act "dependsOn" = Except.ok (JVal.arr ds))
    (hmem : dep ∈ ds)
    (hn : 0 < n)
    (hok : (actDepsStep an act n mc1).2 = Except.ok mc2) :
    ∃ depAct anchor conds cond0 src dst,
      jsub dep "activity" = Except.ok depAct ∧
      pyReplace depAct ' ' '-' = Except.ok anchor ∧
      jsub dep "dependencyConditions" = Except.ok conds ∧
      pyIndex conds 0 = Except.ok cond0 ∧
      pyReplace depAct ' ' '_' = Except.ok src ∧
      pyReplace an ' ' '_' = Except.ok dst ∧
      occursIn ("\n   * [" ++ pyStr depAct ++ "](#" ++ anchor ++ ") (" ++ pyStr cond0 ++ ") \n")
        (actDepsStep an act n mc1).1 ∧
      occursIn (src ++ (" --> " ++ (dst ++ ";\n"))) mc2 := by
  unfold actDepsStep at hok ⊢
  rw [if_pos hn] at hok ⊢
  simp only [hds, pyIterList_arr, mBind_lift_ok, mBind_write, snd_pair, fst_pair,
    mdWrite_fst] at hok ⊢
  obtain ⟨depAct, anchor, conds, cond0, src, dst, g1, g2, g3, g4, g5, g6, gline, gedge⟩ :=
    processDeps_mem an ds dep mc1 mc2 hmem hok
  exact ⟨depAct, anchor, conds, cond0, src, dst, g1, g2, g3, g4, g5, g6,
    occursIn_append_left _ gline, gedge⟩

theorem mBind_actDescStep {β : Type} (act : JVal) (f : Unit → M β) :
    mBind (actDescStep act) f = ((actDescStep act).1 ++ (f ()).1, (f ()).2) :=
  mBind_eq_ok f (actDescStep_ok act)

theorem mBind_descStep {β : Type} (properties : JVal) (f : Unit → M β) :
    mBind (descStep properties) f = ((descStep properties).1 ++ (f ()).1, (f ()).2) :=
  mBind_eq_ok f (descStep_ok properties)

theorem processActivity_eq (act : JVal) (mc : String)
    {activity_name tipo_actividad : JVal} {nodeId : String} {deps0 : JVal} {n : Nat}
    (h1 : jsub act "name" = Except.ok activity_name)
    (h2 : jsub act "type" = Except.ok tipo_actividad)
    (h3 : pyReplace activity_name ' ' '_' = Except.ok nodeId)
    (h4 : jsub act "dependsOn" = Except.ok deps0)
    (h5 : pyLen deps0 = Except.ok n) :
    processActivity act mc =
      ("\n - **Name:** " ++ pyStr activity_name ++ " \n" ++
        ("\n   **Type:** " ++ pyStr tipo_actividad ++ " \n" ++
          ((actDescStep act).1 ++
            (mBind (actDepsStep activity_name act n
                (mc ++ (nodeId ++ ("(" ++ (pyStr activity_name ++ ");\n")))))
              fun mc2 => mBind (actCopyStep act tipo_actividad) fun _ => mPure mc2).1)),
       (mBind (actDepsStep activity_name act n
            (mc ++ (nodeId ++ ("(" ++ (pyStr activity_name ++ ");\n")))))
          fun mc2 => mBind (actCopyStep act tipo_actividad) fun _ => mPure mc2).2) := by
  simp only [processActivity, h1, h2, h3, h4, h5, mBind_lift_ok, mBind_write,
    mBind_actDescStep, fst_pair, snd_pair]

theorem processActivity_parts (act : JVal) (mc mcB : String)
    (hok : (processActivity act mc).2 = Except.ok mcB) :
    ∃ activity_name tipo_actividad nodeId deps0 n,
      jsub act "name" = Except.ok activity_name ∧
      jsub act "type" = Except.ok tipo_actividad ∧
      pyReplace activity_name ' ' '_' = Except.ok nodeId ∧
      jsub act "dependsOn" = Except.ok deps0 ∧
      pyLen deps0 = Except.ok n ∧
      (actDepsStep activity_name act n
        (mc ++ (nodeId ++ ("(" ++ (pyStr activity_name ++ ");\n"))))).2 = Except.ok mcB ∧
      occursIn ((actDepsStep activity_name act n
        (mc ++ (nodeId ++ ("(" ++ (pyStr activity_name ++ ");\n"))))).1) ((processActivity act mc).1) ∧
      (actCopyStep act tipo_actividad).2 = Except.ok () ∧
      occursIn ((actCopyStep act tipo_actividad).1) ((processActivity act mc).1) := by
  cases h1 : jsub act "name" with
  | error e =>
    simp only [processActivity, h1, mBind_lift_error, snd_pair] at hok
    exact absurd hok (by simp)
  | ok activity_name =>
  cases h2 : jsub act "type" with
  | error e =>
    simp only [processActivity, h1, mBind_lift_ok, h2, mBind_lift_error, snd_pair] at hok
    exact absurd hok (by simp)
  | ok tipo_actividad =>
  cases h3 : pyReplace activity_name ' ' '_' with
  | error e =>
    simp only [processActivity, h1, h2, mBind_lift_ok, h3, mBind_lift_error, mBind_write,
      snd_pair] at hok
    exact absurd hok (by simp)
  | ok nodeId =>
  cases h4 : jsub act "dependsOn" with
  | error e =>
    simp only [processActivity, h1, h2, h3, mBind_lift_ok, h4, mBind_lift_error, mBind_write,
      mBind_actDescStep, snd_pair] at hok
    exact absurd hok (by simp)
  | ok deps0 =>
  cases h5 : pyLen deps0 with
  | error e =>
    simp only [processActivity, h1, h2, h3, h4, mBind_lift_ok, h5, mBind_lift_error, mBind_write,
      mBind_actDescStep, snd_pair] at hok
    exact absurd hok (by simp)
  | ok n =>
  rw [processActivity_eq act mc h1 h2 h3 h4 h5] at hok ⊢
  simp only [snd_pair, fst_pair] at hok ⊢
  cases hd : (actDepsStep activity_name act n
      (mc ++ (nodeId ++ ("(" ++ (pyStr activity_name ++ ");\n"))))).2 with
  | error e =>
    rw [mBind_eq_error _ hd] at hok
    exact absurd hok (by simp)
  | ok mc2 =>
  rw [mBind_eq_ok _ hd] at hok ⊢
  simp only [snd_pair, fst_pair] at hok ⊢
  cases hc : (actCopyStep act tipo_actividad).2 with
  | error e =>
    rw [mBind_eq_error _ hc] at hok
    exact absurd hok (by simp)
  | ok u =>
  cases u
  rw [mBind_eq_ok _ hc] at hok ⊢
  simp only [snd_pair, fst_pair, mPure_snd, mPure_fst, Except.ok.injEq] at hok ⊢
  subst hok
  refine ⟨activity_name, tipo_actividad, nodeId, deps0, n, rfl, rfl, h3, rfl, h5, hd, ?_, hc, ?_⟩
  · exact occursIn_append_left _ (occursIn_append_left _ (occursIn_append_left _
      (occursIn_append_right _ (occursIn_refl _))))
  · exact occursIn_append_left _ (occursIn_append_left _ (occursIn_append_left _
      (occursIn_append_left _ (occursIn_append_right _ (occursIn_refl _)))))

theorem processActivity_mono (act : JVal) (mc mcB : String)
    (hok : (processActivity act mc).2 = Except.ok mcB) : ∃ t, mcB = mc ++ t := by
  obtain ⟨an, tipo, nodeId, deps0, n, _, _, _, _, _, hd, _, _, _⟩ :=
    processActivity_parts act mc mcB hok
  obtain ⟨t, ht⟩ := actDepsStep_mono _ _ _ _ _ hd
  exact ⟨nodeId ++ ("(" ++ (pyStr an ++ ");\n")) ++ t, by rw [ht, str_append_assoc]⟩

/-! ### The activity loop -/

theorem processActivities_cons_ok (a : JVal) (rest : List JVal) (mc mc1 : String)
    (hpa : (processActivity a mc).2 = Except.ok mc1) :
    processActivities (a :: rest) mc =
      ((processActivity a mc).1 ++ (processActivities rest mc1).1,
       (processActivities rest mc1).2) := by
  simp only [processActivities]
  exact mBind_eq_ok _ hpa

theorem processActivities_mono (acts : List JVal) :
    ∀ mc mcF : String, (processActivities acts mc).2 = Except.ok mcF → ∃ t, mcF = mc ++ t := by
  induction acts with
  | nil =>
    intro mc mcF h
    simp only [processActivities, mPure_snd, Except.ok.injEq] at h
    exact ⟨"", by rw [str_append_nil]; exact h.symm⟩
  | cons a rest ih =>
    intro mc mcF h
    cases hpa : (processActivity a mc).2 with
    | error e =>
      simp only [processActivities] at h
      rw [mBind_eq_error _ hpa] at h
      exact absurd h (by simp)
    | ok mc1 =>
      rw [processActivities_cons_ok a rest mc mc1 hpa] at h
      have h' : (processActivities rest mc1).2 = Except.ok mcF := h
      obtain ⟨t, ht⟩ := ih _ _ h'
      obtain ⟨t0, ht0⟩ := processActivity_mono a mc mc1 hpa
      exact ⟨t0 ++ t, by rw [ht, ht0, str_append_assoc]⟩

theorem processActivities_mem (acts : List JVal) (act : JVal) :
    ∀ mc mcF : String, act ∈ acts → (processActivities acts mc).2 = Except.ok mcF →
    ∃ mcA mcB t, (processActivity act mcA).2 = Except.ok mcB ∧
      occursIn ((processActivity act mcA).1) ((processActivities acts mc).1) ∧
      mcF = mcB ++ t := by
  induction acts with
  | nil =>
    intro mc mcF hmem
    exact absurd hmem (List.not_mem_nil act)
  | cons a rest ih =>
    intro mc mcF hmem h
    cases hpa : (processActivity a mc).2 with
    | error e =>
      simp only [processActivities] at h
      rw [mBind_eq_error _ hpa] at h
      exact absurd h (by simp)
    | ok mc1 =>
    rw [processActivities_cons_ok a rest mc mc1 hpa] at h ⊢
    simp only [fst_pair, snd_pair] at h ⊢
    have h' : (processActivities rest mc1).2 = Except.ok mcF := h
    rcases List.mem_cons.mp hmem with heq | hmem'
    · subst heq
      obtain ⟨t, ht⟩ := processActivities_mono rest _ _ h'
      exact ⟨mc, mc1, t, hpa, occursIn_append_right _ (occursIn_refl _), ht⟩
    · obtain ⟨mcA, mcB, t, f1, f2, f3⟩ := ih _ _ hmem' h'
      exact ⟨mcA, mcB, t, f1, occursIn_append_left _ f2, f3⟩

/-! ### The parameter table -/

theorem processParams_cons_eq (p : String) (i : JVal) (rest : List (String × JVal))
    {t d : JVal}
    (h1 : pyGet i "type" = Except.ok t) (h2 : pyGet i "defaultValue" = Except.ok d) :
    processParams ((p, i) :: rest) =
      (("\n |" ++ (p ++ ("|" ++ (pyStr t ++ ("|" ++ (pyStr d ++ "|")))))) ++ (processParams rest).1,
       (processParams rest).2) := by
  simp only [processParams, h1, h2, mBind_lift_ok, mBind_write]

theorem processParams_mem (items : List (String × JVal)) (k : String) (info : JVal) :
    (k, info) ∈ items → (processParams items).2 = Except.ok () →
    ∃ t d, pyGet info "type" = Except.ok t ∧ pyGet info "defaultValue" = Except.ok d ∧
      occursIn ("\n |" ++ (k ++ ("|" ++ (pyStr t ++ ("|" ++ (pyStr d ++ "|"))))))
        ((processParams items).1) := by
  induction items with
  | nil =>
    intro hmem _
    exact absurd hmem (List.not_mem_nil _)
  | cons pi rest ih =>
    obtain ⟨p, i⟩ := pi
    intro hmem h
    cases h1 : pyGet i "type" with
    | error e =>
      simp only [processParams, h1, mBind_lift_error, snd_pair] at h
      exact absurd h (by simp)
    | ok tv =>
    cases h2 : pyGet i "defaultValue" with
    | error e =>
      simp only [processParams, h1, mBind_lift_ok, h2, mBind_lift_error, snd_pair] at h
      exact absurd h (by simp)
    | ok dv =>
    rw [processParams_cons_eq p i rest h1 h2] at h ⊢
    simp only [fst_pair, snd_pair] at h ⊢
    have h' : (processParams rest).2 = Except.ok () := h
    rcases List.mem_cons.mp hmem with heq | hmem'
    · injection heq with hk hi
      subst hk
      subst hi
      exact ⟨tv, dv, h1, h2, occursIn_append_right _ (occursIn_refl _)⟩
    · obtain ⟨tv', dv', g1, g2, gocc⟩ := ih hmem' h'
      exact ⟨tv', dv', g1, g2, occursIn_append_left _ gocc⟩

theorem paramsStep_facts (properties : JVal)
    (hkey : JVal.hasKey properties "parameters" = true)
    (hok : (paramsStep properties).2 = Except.ok ()) :
    ∃ items, pyItems (properties.getD "parameters" (JVal.obj [])) = Except.ok items ∧
      (processParams items).2 = Except.ok () ∧
      occursIn ((processParams items).1) ((paramsStep properties).1) := by
  unfold paramsStep at hok ⊢
  rw [hkey] at hok ⊢
  rw [if_pos rfl] at hok ⊢
  cases hi : pyItems (JVal.getD properties "parameters" (JVal.obj [])) with
  | error e =>
    simp only [hi, mBind_lift_error, mBind_write, snd_pair] at hok
    exact absurd hok (by simp)
  | ok items =>
  simp only [hi, mBind_lift_ok, mBind_write, snd_pair, fst_pair] at hok ⊢
  refine ⟨items, rfl, hok, ?_⟩
  exact occursIn_append_left _ (occursIn_append_left _ (occursIn_append_left _ (occursIn_refl _)))

/-! ### The pipeline body -/

theorem read_pipeline_json_eq (p : JVal)
    {nm activities : JVal} {acts : List JVal} {mcF : String}
    (h1 : jsub p "name" = Except.ok nm)
    (h2 : jsub (p.getD "properties" (JVal.obj [])) "activities" = Except.ok activities)
    (h3 : pyIterList activities = Except.ok acts)
    (hpa : (processActivities acts "```mermaid\ngraph LR;\n").2 = Except.ok mcF) :
    read_pipeline_json p =
      ("\n\n ## " ++ pyStr nm ++ " \n" ++
        ((descStep (p.getD "properties" (JVal.obj []))).1 ++
          ((processActivities acts "```mermaid\ngraph LR;\n").1 ++
            ("\n\n ### Activities Diagram \n" ++
              (("\n " ++ (mcF ++ " ```")) ++
                (paramsStep (p.getD "properties" (JVal.obj []))).1)))),
       (paramsStep (p.getD "properties" (JVal.obj []))).2) := by
  simp only [read_pipeline_json, h1, h2, h3, mBind_lift_ok, mBind_write, mBind_descStep,
    fst_pair, snd_pair]
  rw [mBind_eq_ok _ hpa]

theorem read_pipeline_json_parts (p : JVal)
    (hok : (read_pipeline_json p).2 = Except.ok ()) :
    ∃ nm activities acts mcF,
      jsub p "name" = Except.ok nm ∧
      jsub (p.getD "properties" (JVal.obj [])) "activities" = Except.ok activities ∧
      pyIterList activities = Except.ok acts ∧
      (processActivities acts "```mermaid\ngraph LR;\n").2 = Except.ok mcF ∧
      occursIn ((processActivities acts "```mermaid\ngraph LR;\n").1) ((read_pipeline_json p).1) ∧
      occursIn ("\n " ++ (mcF ++ " ```")) ((read_pipeline_json p).1) ∧
      (paramsStep (p.getD "properties" (JVal.obj []))).2 = Except.ok () ∧
      occursIn ((paramsStep (p.getD "properties" (JVal.obj []))).1) ((read_pipeline_json p).1) := by
  cases h1 : jsub p "name" with
  | error e =>
    simp only [read_pipeline_json, h1, mBind_lift_error, snd_pair] at hok
    exact absurd hok (by simp)
  | ok nm =>
  cases h2 : jsub (p.getD "properties" (JVal.obj [])) "activities" with
  | error e =>
    simp only [read_pipeline_json, h1, h2, mBind_lift_ok, mBind_lift_error, mBind_write,
      mBind_descStep, snd_pair] at hok
    exact absurd hok (by simp)
  | ok activities =>
  cases h3 : pyIterList activities with
  | error e =>
    simp only [read_pipeline_json, h1, h2, h3, mBind_lift_ok, mBind_lift_error, mBind_write,
      mBind_descStep, snd_pair] at hok
    exact absurd hok (by simp)
  | ok acts =>
  simp only [read_pipeline_json, h1, h2, h3, mBind_lift_ok, mBind_write, mBind_descStep,
    fst_pair, snd_pair] at hok
  cases hpa : (processActivities acts "```mermaid\ngraph LR;\n").2 with
  | error e =>
    rw [mBind_eq_error _ hpa] at hok
    exact absurd hok (by simp)
  | ok mcF =>
  rw [mBind_eq_ok _ hpa] at hok
  simp only [mBind_write, fst_pair, snd_pair] at hok
  rw [read_pipeline_json_eq p h1 h2 h3 hpa]
  simp only [fst_pair, snd_pair]
  refine ⟨nm, activities, acts, mcF, rfl, rfl, h3, hpa, ?_, ?_, hok, ?_⟩
  · exact occursIn_append_left _ (occursIn_append_left _ (occursIn_append_right _
      (occursIn_refl _)))
  · exact occursIn_append_left _ (occursIn_append_left _ (occursIn_append_left _
      (occursIn_append_left _ (occursIn_append_right _ (occursIn_refl _)))))
  · exact occursIn_append_left _ (occursIn_append_left _ (occursIn_append_left _
      (occursIn_append_left _ (occursIn_append_left _ (occursIn_refl _)))))

/-! ### Bridges between `read_pipeline` and the body -/

theorem read_pipeline_ok_written (p : JVal) :
    (read_pipeline (Except.ok p)).written = (read_pipeline_json p).1 := by
  simp only [read_pipeline]
  rcases hr : read_pipeline_json p with ⟨out, r⟩
  cases r <;> rfl

theorem read_pipeline_err_none_iff (p : JVal) :
    (read_pipeline (Except.ok p)).err = none ↔ (read_pipeline_json p).2 = Except.ok () := by
  simp only [read_pipeline]
  rcases hr : read_pipeline_json p with ⟨out, r⟩
  cases r with
  | ok u => cases u; simp
  | error e => simp

theorem read_pipeline_closed_iff (input : Except InputErr JVal) :
    (read_pipeline input).mdClosed = true ↔ (read_pipeline input).err = none := by
  cases input with
  | error e => simp [read_pipeline]
  | ok p =>
    simp only [read_pipeline]
    rcases hr : read_pipeline_json p with ⟨out, r⟩
    cases r with
    | ok u => simp
    | error e => simp

/-! ### Small determinism and evaluation helpers -/

theorem except_det {α : Type} {e1 : Except PyErr α} {a b : α}
    (h1 : e1 = Except.ok a) (h2 : e1 = Except.ok b) : a = b := by
  rw [h1] at h2
  exact Except.ok.inj h2

theorem jsub_of_find {v : JVal} {k : String} {x : JVal} (h : v.find? k = some x) :
    jsub v k = Except.ok x :=
  jsub_ok_iff.mpr h

theorem pyIndex_zero_of_head {conds : List JVal} {c : JVal} (h : conds.head? = some c) :
    pyIndex (JVal.arr conds) 0 = Except.ok c := by
  cases conds with
  | nil => exact absurd h (by simp)
  | cons a t =>
    simp only [List.head?_cons, Option.some.injEq] at h
    subst h
    rfl

theorem pyLen_arr (l : List JVal) : pyLen (JVal.arr l) = Except.ok l.length := rfl

theorem pyReplace_str (s : String) (a b : Char) :
    pyReplace (JVal.str s) a b = Except.ok (replaceChar s a b) := rfl

theorem pyGet_det {info : JVal} {k : String} {d : JVal} (g : pyGet info k = Except.ok d) :
    d = pyGetD info k := by
  cases info with
  | obj kvs => exact (Except.ok.inj g).symm
  | str s => exact absurd g (by simp [pyGet])
  | num n => exact absurd g (by simp [pyGet])
  | bool b => exact absurd g (by simp [pyGet])
  | jnull => exact absurd g (by simp [pyGet])
  | arr l => exact absurd g (by simp [pyGet])

/-! ### The claims -/

/-- C1: for every activity that has a dependency entry whose depended-upon
activity is named "Load Data" with first dependency condition "Succeeded",
the rendered output contains the bulleted dependency line whose link target
is "#Load-Data" followed by "(Succeeded)", and the accumulated diagram text
(which is written into the output inside the mermaid block) contains the edge
declaration "Load_Data --> N" where N is the current activity name with
spaces replaced by underscores. -/
theorem c1_dependency_rendering (p act dep : JVal) (acts ds conds : List JVal) (anm : String)
    (hacts : (p.getD "properties" (JVal.obj [])).find? "activities" = some (JVal.arr acts))
    (hmemA : act ∈ acts)
    (hname : act.find? "name" = some (JVal.str anm))
    (hdeps : act.find? "dependsOn" = some (JVal.arr ds))
    (hmemD : dep ∈ ds)
    (hdact : dep.find? "activity" = some (JVal.str "Load Data"))
    (hconds : dep.find? "dependencyConditions" = some (JVal.arr conds))
    (hc0 : conds.head? = some (JVal.str "Succeeded"))
    (hok : (read_pipeline (Except.ok p)).err = none) :
    occursIn "\n   * [Load Data](#Load-Data) (Succeeded) \n"
      ((read_pipeline (Except.ok p)).written) ∧
    occursIn ("Load_Data --> " ++ (replaceChar anm ' ' '_' ++ ";\n"))
      ((read_pipeline (Except.ok p)).written) := by
  rw [read_pipeline_ok_written]
  have hbody := (read_pipeline_err_none_iff p).mp hok
  obtain ⟨nm, activities, acts', mcF, g1, g2, g3, g4, gPA, gDiag, gPS, gPSo⟩ :=
    read_pipeline_json_parts p hbody
  have hact_eq : activities = JVal.arr acts := except_det g2 (jsub_of_find hacts)
  subst hact_eq
  have hacts_eq : acts' = acts := except_det g3 (pyIterList_arr acts)
  subst hacts_eq
  obtain ⟨mcA, mcB, t, hact_ok, hact_occ, hmcF⟩ :=
    processActivities_mem _ act _ mcF hmemA g4
  obtain ⟨an, tipo, nodeId, deps0, n, k1, k2, k3, k4, k5, kd, kdocc, kc, kcocc⟩ :=
    processActivity_parts act mcA mcB hact_ok
  have han : an = JVal.str anm := except_det k1 (jsub_of_find hname)
  subst han
  have hdeps0 : deps0 = JVal.arr ds := except_det k4 (jsub_of_find hdeps)
  subst hdeps0
  have hn_eq : n = ds.length := except_det k5 (pyLen_arr ds)
  subst hn_eq
  have hn : 0 < ds.length := List.length_pos.mpr (List.ne_nil_of_mem hmemD)
  obtain ⟨depAct, anchor, conds', cond0, src, dst, d1, d2, d3, d4, d5, d6, dline, dedge⟩ :=
    actDepsStep_facts _ act ds.length _ mcB ds dep (jsub_of_find hdeps) hmemD hn kd
  have hdepAct : depAct = JVal.str "Load Data" := except_det d1 (jsub_of_find hdact)
  subst hdepAct
  have hconds' : conds' = JVal.arr conds := except_det d3 (jsub_of_find hconds)
  subst hconds'
  have hcond0 : cond0 = JVal.str "Succeeded" := except_det d4 (pyIndex_zero_of_head hc0)
  subst hcond0
  have hanchor : anchor = "Load-Data" :=
    except_det d2 (pyReplace_str "Load Data" ' ' '-')
  subst hanchor
  have hsrc : src = "Load_Data" :=
    except_det d5 (pyReplace_str "Load Data" ' ' '_')
  subst hsrc
  have hdst : dst = replaceChar anm ' ' '_' :=
    except_det d6 (pyReplace_str anm ' ' '_')
  subst hdst
  constructor
  · have hline : ("\n   * [" ++ pyStr (JVal.str "Load Data") ++ "](#" ++ "Load-Data" ++ ") ("
        ++ pyStr (JVal.str "Succeeded") ++ ") \n")
        = "\n   * [Load Data](#Load-Data) (Succeeded) \n" := rfl
    rw [hline] at dline
    exact occursIn_trans (occursIn_trans (occursIn_trans dline kdocc) hact_occ) gPA
  · have hlit : ("Load_Data" ++ " --> " : String) = "Load_Data --> " := rfl
    have hedge : ("Load_Data" ++ (" --> " ++ (replaceChar anm ' ' '_' ++ ";\n")))
        = ("Load_Data --> " ++ (replaceChar anm ' ' '_' ++ ";\n")) := by
      rw [← str_append_assoc, hlit]
    rw [hedge] at dedge
    rw [hmcF] at gDiag
    have e2 : occursIn ("Load_Data --> " ++ (replaceChar anm ' ' '_' ++ ";\n")) (mcB ++ t) :=
      occursIn_append_right t dedge
    have e3 := occursIn_append_left "\n " (occursIn_append_right " ```" e2)
    exact occursIn_trans e3 gDiag

/-- The concrete dependency entry used by the C1 witness. -/
def c1dep : JVal :=
  JVal.obj [("activity", JVal.str "Load Data"),
            ("dependencyConditions", JVal.arr [JVal.str "Succeeded"])]

/-- First activity of the C1 witness pipeline. -/
def c1actA : JVal :=
  JVal.obj [("name", JVal.str "Load Data"), ("type", JVal.str "Wait"),
            ("dependsOn", JVal.arr [])]

/-- Second activity of the C1 witness pipeline, depending on the first. -/
def c1actB : JVal :=
  JVal.obj [("name", JVal.str "Transform Step"), ("type", JVal.str "Wait"),
            ("dependsOn", JVal.arr [c1dep])]

/-- The C1 witness pipeline. -/
def c1pipe : JVal :=
  JVal.obj [("name", JVal.str "Sample Pipeline"),
            ("properties", JVal.obj [("activities", JVal.arr [c1actA, c1actB])])]

/-- C1 witness: the generic dependency-rendering theorem applied to a concrete
two-activity pipeline. -/
theorem c1_dependency_rendering_witness :
    (read_pipeline (Except.ok c1pipe)).err = none ∧
    occursIn "\n   * [Load Data](#Load-Data) (Succeeded) \n"
      ((read_pipeline (Except.ok c1pipe)).written) ∧
    occursIn ("Load_Data --> " ++ (replaceChar "Transform Step" ' ' '_' ++ ";\n"))
      ((read_pipeline (Except.ok c1pipe)).written) :=
  ⟨rfl,
   (c1_dependency_rendering c1pipe c1actB c1dep [c1actA, c1actB] [c1dep] [JVal.str "Succeeded"]
      "Transform Step" rfl (List.Mem.tail _ (List.Mem.head _)) rfl rfl (List.Mem.head _)
      rfl rfl rfl rfl).1,
   (c1_dependency_rendering c1pipe c1actB c1dep [c1actA, c1actB] [c1dep] [JVal.str "Succeeded"]
      "Transform Step" rfl (List.Mem.tail _ (List.Mem.head _)) rfl rfl (List.Mem.head _)
      rfl rfl rfl rfl).2⟩

/-- C2 (amended): `md.close()` on line 126 is reached in exactly those
invocations that raise no exception; on every error path the close is
skipped, because the `with` block only manages the input file handle. -/
theorem c2_close_iff_success (input : Except InputErr JVal) :
    (read_pipeline input).mdClosed = true ↔ (read_pipeline input).err = none :=
  read_pipeline_closed_iff input

/-- C2 counterexample: a document without the key "name" makes the run raise
an exception partway, and the markdown handle is not closed, contradicting
the claim that it is closed on every exit path. -/
theorem c2_close_counterexample :
    (read_pipeline (Except.ok (JVal.obj []))).err ≠ none ∧
    (read_pipeline (Except.ok (JVal.obj []))).mdClosed = false :=
  ⟨by decide, rfl⟩

/-- C3 (amended): for a Copy activity whose source query value is the string
"SELECT 1", a successful run appends a fenced code block whose language tag
is the uppercase "SQL" and whose content line is the raw query text indented
by three spaces with a trailing space: the output contains the exact text
between the backtick fences shown below. -/
theorem c3_sql_block_amended (p act tp src srq : JVal) (acts : List JVal)
    (hacts : (p.getD "properties" (JVal.obj [])).find? "activities" = some (JVal.arr acts))
    (hmemA : act ∈ acts)
    (htype : act.find? "type" = some (JVal.str "Copy"))
    (htp : act.find? "typeProperties" = some tp)
    (hsrc : tp.find? "source" = some src)
    (hq : src.find? "sqlReaderQuery" = some srq)
    (hv : srq.find? "value" = some (JVal.str "SELECT 1"))
    (hok : (read_pipeline (Except.ok p)).err = none) :
    occursIn "\n   ```SQL \n   SELECT 1 \n   ```" ((read_pipeline (Except.ok p)).written) := by
  rw [read_pipeline_ok_written]
  have hbody := (read_pipeline_err_none_iff p).mp hok
  obtain ⟨nm, activities, acts', mcF, g1, g2, g3, g4, gPA, gDiag, gPS, gPSo⟩ :=
    read_pipeline_json_parts p hbody
  have hact_eq : activities = JVal.arr acts := except_det g2 (jsub_of_find hacts)
  subst hact_eq
  have hacts_eq : acts' = acts := except_det g3 (pyIterList_arr acts)
  subst hacts_eq
  obtain ⟨mcA, mcB, t, hact_ok, hact_occ, hmcF⟩ :=
    processActivities_mem _ act _ mcF hmemA g4
  obtain ⟨an, tipo, nodeId, deps0, n, k1, k2, k3, k4, k5, kd, kdocc, kc, kcocc⟩ :=
    processActivity_parts act mcA mcB hact_ok
  have htipo : tipo = JVal.str "Copy" := except_det k2 (jsub_of_find htype)
  subst htipo
  obtain ⟨tp', src', sit, srq', value_sql, m1, m2, m3, m4, m5, mocc⟩ :=
    actCopyStep_facts act (JVal.str "Copy") rfl kc
  have htp' : tp' = tp := except_det m1 (jsub_of_find htp)
  subst htp'
  have hsrc' : src' = src := except_det m2 (jsub_of_find hsrc)
  subst hsrc'
  have hsrq' : srq' = srq := except_det m4 (jsub_of_find hq)
  subst hsrq'
  have hval : value_sql = JVal.str "SELECT 1" := except_det m5 (jsub_of_find hv)
  subst hval
  have hlit : ("\n   ```SQL \n   " ++ (pyStr (JVal.str "SELECT 1") ++ " \n   ```"))
      = "\n   ```SQL \n   SELECT 1 \n   ```" := rfl
  rw [hlit] at mocc
  exact occursIn_trans (occursIn_trans (occursIn_trans mocc kcocc) hact_occ) gPA

/-- The Copy activity used by the C3 sample pipeline. -/
def c3act : JVal :=
  JVal.obj [("name", JVal.str "Copy Data"), ("type", JVal.str "Copy"),
            ("dependsOn", JVal.arr []),
            ("typeProperties", JVal.obj [("source", JVal.obj [
              ("type", JVal.str "SqlSource"),
              ("sqlReaderQuery", JVal.obj [("value", JVal.str "SELECT 1")])])])]

/-- The C3 sample pipeline. -/
def c3pipe : JVal :=
  JVal.obj [("name", JVal.str "Copy Pipeline"),
            ("properties", JVal.obj [("activities", JVal.arr [c3act])])]

/-- C3 counterexample: the rendered output of a Copy activity with query
"SELECT 1" contains no fence tagged with the lowercase "sql" at all, so the
claim that the output contains a fenced block whose language tag is the
string "sql" is false as stated; the tag actually written is "SQL". -/
theorem c3_sql_block_counterexample :
    ¬ occursIn "```sql" ((read_pipeline (Except.ok c3pipe)).written) ∧
    occursIn "```SQL \n   SELECT 1 \n   ```" ((read_pipeline (Except.ok c3pipe)).written) :=
  ⟨by decide, by decide⟩

/-- C3 witness: the amended theorem applied to the concrete Copy pipeline. -/
theorem c3_sql_block_amended_witness :
    (read_pipeline (Except.ok c3pipe)).err = none ∧
    occursIn "\n   ```SQL \n   SELECT 1 \n   ```" ((read_pipeline (Except.ok c3pipe)).written) :=
  ⟨rfl,
   c3_sql_block_amended c3pipe c3act
     (JVal.obj [("source", JVal.obj [("type", JVal.str "SqlSource"),
       ("sqlReaderQuery", JVal.obj [("value", JVal.str "SELECT 1")])])])
     (JVal.obj [("type", JVal.str "SqlSource"),
       ("sqlReaderQuery", JVal.obj [("value", JVal.str "SELECT 1")])])
     (JVal.obj [("value", JVal.str "SELECT 1")])
     [c3act] rfl (List.Mem.head _) rfl rfl rfl rfl rfl rfl⟩

/-- C4: when the input pipeline file cannot be opened or cannot be parsed,
the failure is propagated to the caller and nothing has been appended to the
markdown file (both failure kinds happen before the first write). -/
theorem c4_input_failure (e : InputErr) :
    (read_pipeline (Except.error e)).written = "" ∧
    (read_pipeline (Except.error e)).err = some (PyErr.ioError e) :=
  ⟨rfl, rfl⟩

/-- C5: the run fails (with the exception propagated, no default substituted)
when the document lacks "name", when "properties.activities" is missing, and
when a dependency entry carries an empty "dependencyConditions" sequence,
since its first element is read unconditionally. -/
theorem c5_lookup_failures :
    (∀ p : JVal, p.find? "name" = none → (read_pipeline (Except.ok p)).err ≠ none) ∧
    (∀ p nm : JVal, p.find? "name" = some nm →
      (p.getD "properties" (JVal.obj [])).find? "activities" = none →
      (read_pipeline (Except.ok p)).err ≠ none) ∧
    (∀ (p act dep : JVal) (acts ds : List JVal),
      (p.getD "properties" (JVal.obj [])).find? "activities" = some (JVal.arr acts) →
      act ∈ acts → act.find? "dependsOn" = some (JVal.arr ds) → dep ∈ ds →
      dep.find? "dependencyConditions" = some (JVal.arr []) →
      (read_pipeline (Except.ok p)).err ≠ none) := by
  refine ⟨?_, ?_, ?_⟩
  · intro p hnone hok
    have hbody := (read_pipeline_err_none_iff p).mp hok
    obtain ⟨nm, activities, acts', mcF, g1, _, _, _, _, _, _, _⟩ :=
      read_pipeline_json_parts p hbody
    obtain ⟨e, he⟩ := jsub_error_of_none hnone
    rw [he] at g1
    exact Except.noConfusion g1
  · intro p nm hname hanone hok
    have hbody := (read_pipeline_err_none_iff p).mp hok
    obtain ⟨nm', activities, acts', mcF, g1, g2, _, _, _, _, _, _⟩ :=
      read_pipeline_json_parts p hbody
    obtain ⟨e, he⟩ := jsub_error_of_none hanone
    rw [he] at g2
    exact Except.noConfusion g2
  · intro p act dep acts ds hacts hmemA hdeps hmemD hconds hok
    have hbody := (read_pipeline_err_none_iff p).mp hok
    obtain ⟨nm, activities, acts', mcF, g1, g2, g3, g4, _, _, _, _⟩ :=
      read_pipeline_json_parts p hbody
    have hact_eq : activities = JVal.arr acts := except_det g2 (jsub_of_find hacts)
    subst hact_eq
    have hacts_eq : acts' = acts := except_det g3 (pyIterList_arr acts)
    subst hacts_eq
    obtain ⟨mcA, mcB, t, hact_ok, _, _⟩ := processActivities_mem _ act _ mcF hmemA g4
    obtain ⟨an, tipo, nodeId, deps0, n, k1, k2, k3, k4, k5, kd, _, _, _⟩ :=
      processActivity_parts act mcA mcB hact_ok
    have hdeps0 : deps0 = JVal.arr ds := except_det k4 (jsub_of_find hdeps)
    subst hdeps0
    have hn_eq : n = ds.length := except_det k5 (pyLen_arr ds)
    subst hn_eq
    have hn : 0 < ds.length := List.length_pos.mpr (List.ne_nil_of_mem hmemD)
    obtain ⟨depAct, anchor, conds', cond0, src, dst, d1, d2, d3, d4, d5, d6, _, _⟩ :=
      actDepsStep_facts _ act ds.length _ mcB ds dep (jsub_of_find hdeps) hmemD hn kd
    have hconds' : conds' = JVal.arr [] := except_det d3 (jsub_of_find hconds)
    subst hconds'
    rw [show pyIndex (JVal.arr []) 0 = Except.error PyErr.indexError from rfl] at d4
    exact Except.noConfusion d4

/-- Activity with a malformed dependency entry for the C5 witness. -/
def c5dep : JVal :=
  JVal.obj [("activity", JVal.str "Load Data"), ("dependencyConditions", JVal.arr [])]

/-- Activity carrying the malformed dependency entry of the C5 witness. -/
def c5act : JVal :=
  JVal.obj [("name", JVal.str "Step One"), ("type", JVal.str "Wait"),
            ("dependsOn", JVal.arr [c5dep])]

/-- Pipeline with "name" present but no activities, for the C5 witness. -/
def c5noacts : JVal :=
  JVal.obj [("name", JVal.str "P"), ("properties", JVal.obj [])]

/-- Pipeline whose only activity has a dependency with an empty condition
list, for the C5 witness. -/
def c5emptyconds : JVal :=
  JVal.obj [("name", JVal.str "P"),
            ("properties", JVal.obj [("activities", JVal.arr [c5act])])]

/-- C5 witness: all three failure families at concrete documents. -/
theorem c5_lookup_failures_witness :
    (read_pipeline (Except.ok (JVal.obj []))).err ≠ none ∧
    (read_pipeline (Except.ok c5noacts)).err ≠ none ∧
    (read_pipeline (Except.ok c5emptyconds)).err ≠ none :=
  ⟨c5_lookup_failures.1 (JVal.obj []) rfl,
   c5_lookup_failures.2.1 c5noacts (JVal.str "P") rfl rfl,
   c5_lookup_failures.2.2 c5emptyconds c5act c5dep [c5act] [c5dep]
     rfl (List.Mem.head _) rfl (List.Mem.head _) rfl⟩

/-- A single occurrence splitting off an explicit prefix pair. -/
theorem occursIn_glue (a b post : String) : occursIn (a ++ b) (a ++ (b ++ post)) :=
  ⟨"", post, by rw [str_nil_append, str_append_assoc]⟩

/-- C6: a pipeline whose "properties.activities" is present but empty still
gets a valid empty diagram block: the output contains the "Activities
Diagram" heading followed by the fenced mermaid block whose whole content is
the direction declaration `graph LR;` with no node or edge lines.  This
holds regardless of whether the later parameter section succeeds. -/
theorem c6_empty_diagram (p nm : JVal)
    (hname : p.find? "name" = some nm)
    (hacts : (p.getD "properties" (JVal.obj [])).find? "activities" = some (JVal.arr [])) :
    occursIn "\n\n ### Activities Diagram \n\n ```mermaid\ngraph LR;\n ```"
      ((read_pipeline (Except.ok p)).written) := by
  rw [read_pipeline_ok_written]
  have e : read_pipeline_json p =
      ("\n\n ## " ++ pyStr nm ++ " \n" ++
        ((descStep (p.getD "properties" (JVal.obj []))).1 ++
          ("\n\n ### Activities Diagram \n" ++
            (("\n " ++ ("```mermaid\ngraph LR;\n" ++ " ```")) ++
              (paramsStep (p.getD "properties" (JVal.obj []))).1))),
       (paramsStep (p.getD "properties" (JVal.obj []))).2) := by
    simp only [read_pipeline_json, jsub_of_find hname, jsub_of_find hacts, pyIterList_arr,
      processActivities, mBind_lift_ok, mBind_pure, mBind_write, mBind_descStep,
      fst_pair, snd_pair]
  rw [e]
  simp only [fst_pair]
  have key := occursIn_glue "\n\n ### Activities Diagram \n"
    ("\n " ++ ("```mermaid\ngraph LR;\n" ++ " ```"))
    ((paramsStep (p.getD "properties" (JVal.obj []))).1)
  rw [show ("\n\n ### Activities Diagram \n" ++ ("\n " ++ ("```mermaid\ngraph LR;\n" ++ " ```"))
      : String) = "\n\n ### Activities Diagram \n\n ```mermaid\ngraph LR;\n ```" from rfl] at key
  exact occursIn_append_left _ (occursIn_append_left _ key)

/-- The C6 witness pipeline: an empty activities sequence. -/
def c6pipe : JVal :=
  JVal.obj [("name", JVal.str "Empty Pipeline"),
            ("properties", JVal.obj [("activities", JVal.arr [])])]

/-- C6 witness: the empty-diagram theorem at a concrete pipeline. -/
theorem c6_empty_diagram_witness :
    occursIn "\n\n ### Activities Diagram \n\n ```mermaid\ngraph LR;\n ```"
      ((read_pipeline (Except.ok c6pipe)).written) :=
  c6_empty_diagram c6pipe (JVal.str "Empty Pipeline") rfl rfl

theorem pyItems_obj (kvs : List (String × JVal)) : pyItems (JVal.obj kvs) = Except.ok kvs := rfl

/-- C7: in a successful run, a parameter entry windowStart with type "String"
and default "2021-01-01" produces exactly the table row
`|windowStart|String|2021-01-01|`, and a parameter entry without a
"defaultValue" key produces a row whose Default Value cell is the Python
text of the absent value, the literal "None", instead of failing. -/
theorem c7_parameter_rows (p : JVal) (params : List (String × JVal))
    (hp : (p.getD "properties" (JVal.obj [])).find? "parameters" = some (JVal.obj params))
    (hok : (read_pipeline (Except.ok p)).err = none) :
    (∀ info : JVal, ("windowStart", info) ∈ params →
      info.find? "type" = some (JVal.str "String") →
      info.find? "defaultValue" = some (JVal.str "2021-01-01") →
      occursIn "\n |windowStart|String|2021-01-01|" ((read_pipeline (Except.ok p)).written)) ∧
    (∀ (nm : String) (info : JVal), (nm, info) ∈ params →
      info.find? "defaultValue" = none →
      occursIn ("\n |" ++ (nm ++ ("|" ++ (pyStr (pyGetD info "type") ++ "|None|"))))
        ((read_pipeline (Except.ok p)).written)) := by
  rw [read_pipeline_ok_written]
  have hbody := (read_pipeline_err_none_iff p).mp hok
  obtain ⟨nm0, activities, acts', mcF, g1, g2, g3, g4, gPA, gDiag, gPS, gPSo⟩ :=
    read_pipeline_json_parts p hbody
  have hkey : JVal.hasKey (p.getD "properties" (JVal.obj [])) "parameters" = true := by
    rw [JVal.hasKey, hp]
    rfl
  obtain ⟨items, pitems, ppok, ppocc⟩ :=
    paramsStep_facts (p.getD "properties" (JVal.obj [])) hkey gPS
  have hpd : JVal.getD (p.getD "properties" (JVal.obj [])) "parameters" (JVal.obj [])
      = JVal.obj params := by
    rw [JVal.getD, hp]
    rfl
  rw [hpd] at pitems
  have hitems : items = params := except_det pitems (pyItems_obj params)
  subst hitems
  constructor
  · intro info hmem ht hd
    obtain ⟨t, d, q1, q2, qocc⟩ := processParams_mem _ "windowStart" info hmem ppok
    have ht' : t = JVal.str "String" := by
      rw [pyGet_det q1, pyGetD, ht]
      rfl
    subst ht'
    have hd' : d = JVal.str "2021-01-01" := by
      rw [pyGet_det q2, pyGetD, hd]
      rfl
    subst hd'
    rw [show ("\n |" ++ ("windowStart" ++ ("|" ++ (pyStr (JVal.str "String") ++
        ("|" ++ (pyStr (JVal.str "2021-01-01") ++ "|")))))
        : String) = "\n |windowStart|String|2021-01-01|" from rfl] at qocc
    exact occursIn_trans (occursIn_trans qocc ppocc) gPSo
  · intro nm info hmem hd
    obtain ⟨t, d, q1, q2, qocc⟩ := processParams_mem _ nm info hmem ppok
    have ht' : t = pyGetD info "type" := pyGet_det q1
    subst ht'
    have hd' : d = JVal.jnull := by
      rw [pyGet_det q2, pyGetD, hd]
      rfl
    subst hd'
    rw [show ("|" ++ (pyStr JVal.jnull ++ "|") : String) = "|None|" from rfl] at qocc
    exact occursIn_trans (occursIn_trans qocc ppocc) gPSo

/-- First parameter entry of the C7 witness pipeline. -/
def c7paramStart : JVal :=
  JVal.obj [("type", JVal.str "String"), ("defaultValue", JVal.str "2021-01-01")]

/-- Second parameter entry (no default value) of the C7 witness pipeline. -/
def c7paramEnd : JVal :=
  JVal.obj [("type", JVal.str "String")]

/-- The C7 witness pipeline. -/
def c7pipe : JVal :=
  JVal.obj [("name", JVal.str "Param Pipeline"),
            ("properties", JVal.obj [
              ("activities", JVal.arr []),
              ("parameters", JVal.obj [
                ("windowStart", c7paramStart),
                ("windowEnd", c7paramEnd)])])]

/-- C7 witness: both parameter-row statements at a concrete pipeline. -/
theorem c7_parameter_rows_witness :
    (read_pipeline (Except.ok c7pipe)).err = none ∧
    occursIn "\n |windowStart|String|2021-01-01|" ((read_pipeline (Except.ok c7pipe)).written) ∧
    occursIn ("\n |" ++ ("windowEnd" ++ ("|" ++ (pyStr (pyGetD c7paramEnd "type") ++ "|None|"))))
      ((read_pipeline (Except.ok c7pipe)).written) :=
  ⟨rfl,
   (c7_parameter_rows c7pipe [("windowStart", c7paramStart), ("windowEnd", c7paramEnd)]
      rfl rfl).1 c7paramStart (List.Mem.head _) rfl rfl,
   (c7_parameter_rows c7pipe [("windowStart", c7paramStart), ("windowEnd", c7paramEnd)]
      rfl rfl).2 "windowEnd" c7paramEnd (List.Mem.tail _ (List.Mem.head _)) rfl⟩

/-- The markdown file content after appending one run of `read_pipeline` to
`content` (the file is opened in append mode). -/
def appendRun (content : String) (input : Except InputErr JVal) : String :=
  content ++ (read_pipeline input).written

/-- C8: rendering is deterministic and a pure append: running the same
well-formed pipeline twice against an initially empty output file yields the
single-run content concatenated with itself. -/
theorem c8_double_append (input : Except InputErr JVal)
    (hok : (read_pipeline input).err = none) :
    appendRun (appendRun "" input) input
      = (read_pipeline input).written ++ (read_pipeline input).written := by
  unfold appendRun
  rw [str_nil_append]

/-- The C8 witness pipeline. -/
def c8pipe : JVal :=
  JVal.obj [("name", JVal.str "P8"),
            ("properties", JVal.obj [("activities", JVal.arr [])])]

/-- C8 witness at a concrete well-formed pipeline. -/
theorem c8_double_append_witness :
    (read_pipeline (Except.ok c8pipe)).err = none ∧
    appendRun (appendRun "" (Except.ok c8pipe)) (Except.ok c8pipe)
      = (read_pipeline (Except.ok c8pipe)).written ++ (read_pipeline (Except.ok c8pipe)).written :=
  ⟨rfl, c8_double_append (Except.ok c8pipe) rfl⟩

/-- C9: a document with a "name" but no "properties" key behaves exactly as
if "properties.activities" were missing: the level-two heading has already
been written when the lookup of "activities" on the empty default raises
KeyError, so the failed run leaves exactly the heading as partial output,
and the handle is not closed. -/
theorem c9_missing_properties (p nm : JVal)
    (hname : p.find? "name" = some nm)
    (hprops : p.find? "properties" = none) :
    read_pipeline (Except.ok p) =
      ⟨"\n\n ## " ++ pyStr nm ++ " \n", some (PyErr.keyError "activities"), false⟩ := by
  have hpd : JVal.getD p "properties" (JVal.obj []) = JVal.obj [] := by
    rw [JVal.getD, hprops]
    rfl
  have hact : jsub (JVal.obj []) "activities" = Except.error (PyErr.keyError "activities") := rfl
  have hdesc1 : (descStep (JVal.obj [])).1 = "" := rfl
  have hbody : read_pipeline_json p =
      ("\n\n ## " ++ pyStr nm ++ " \n" ++ ("" ++ ""),
       Except.error (PyErr.keyError "activities")) := by
    simp only [read_pipeline_json, jsub_of_find hname, hpd, hact, hdesc1, mBind_lift_ok,
      mBind_write, mBind_descStep, mBind_lift_error, fst_pair, snd_pair]
  have hw : "\n\n ## " ++ pyStr nm ++ " \n" ++ ("" ++ "") = "\n\n ## " ++ pyStr nm ++ " \n" := by
    rw [show (("" : String) ++ "") = "" from rfl, str_append_nil]
  simp only [read_pipeline]
  rw [hbody, hw]

/-- The C9 witness pipeline: a name but no properties section. -/
def c9pipe : JVal :=
  JVal.obj [("name", JVal.str "P9")]

/-- C9 witness: the exact partial output at a concrete document. -/
theorem c9_missing_properties_witness :
    read_pipeline (Except.ok c9pipe) =
      ⟨"\n\n ## P9 \n", some (PyErr.keyError "activities"), false⟩ :=
  c9_missing_properties c9pipe (JVal.str "P9") rfl rfl

/-- C10: every activity must carry a "dependsOn" key: if any activity in the
activities sequence lacks it, the run fails (the subscript inside the len()
call raises), so an absent key is not treated as an empty sequence. -/
theorem c10_dependson_required (p act : JVal) (acts : List JVal)
    (hacts : (p.getD "properties" (JVal.obj [])).find? "activities" = some (JVal.arr acts))
    (hmem : act ∈ acts)
    (hnd : act.find? "dependsOn" = none) :
    (read_pipeline (Except.ok p)).err ≠ none := by
  intro hok
  have hbody := (read_pipeline_err_none_iff p).mp hok
  obtain ⟨nm, activities, acts', mcF, g1, g2, g3, g4, _, _, _, _⟩ :=
    read_pipeline_json_parts p hbody
  have hact_eq : activities = JVal.arr acts := except_det g2 (jsub_of_find hacts)
  subst hact_eq
  have hacts_eq : acts' = acts := except_det g3 (pyIterList_arr acts)
  subst hacts_eq
  obtain ⟨mcA, mcB, t, hact_ok, _, _⟩ := processActivities_mem _ act _ mcF hmem g4
  obtain ⟨an, tipo, nodeId, deps0, n, k1, k2, k3, k4, k5, _, _, _, _⟩ :=
    processActivity_parts act mcA mcB hact_ok
  have := jsub_ok_iff.mp k4
  rw [hnd] at this
  exact Option.noConfusion this

/-- The C10 witness activity, with no "dependsOn" key. -/
def c10act : JVal :=
  JVal.obj [("name", JVal.str "Orphan"), ("type", JVal.str "Wait")]

/-- The C10 witness pipeline. -/
def c10pipe : JVal :=
  JVal.obj [("name", JVal.str "P10"),
            ("properties", JVal.obj [("activities", JVal.arr [c10act])])]

/-- C10 witness: the missing-dependsOn failure at a concrete pipeline. -/
theorem c10_dependson_required_witness :
    (read_pipeline (Except.ok c10pipe)).err ≠ none :=
  c10_dependson_required c10pipe c10act [c10act] rfl (List.Mem.head _) rfl
